import Mathlib

/-!
Verification of the RoboSafe safety-supervisor core against its
natural-language specification.

The definitions below are a shallow embedding of the Python sources:

* `src/robosafe/core/state_machine.py`  — `SafetyState`, `StateTransition`,
  `SafetyStateMachine` (transition guard, convenience requests, history);
* `src/robosafe/core/signal_manager.py` — `Signal`, `SignalDefinition`,
  `SignalManager` (registration, updates, fail-safe reads, watchdog);
* `src/robosafe/core/rule_engine.py`    — rule RS-002 (PLC heartbeat) and its
  E-STOP wiring;
* `src/robosafe/agents/analysis_agent.py`    — collision risk from TTC;
* `src/robosafe/agents/decision_agent.py`    — threshold ladder;
* `src/robosafe/agents/orchestrator_agent.py` — recommendation arbitration.

Python `dict`s are modelled as association lists with in-place overwrite on an
existing key (`dictInsert`), wall-clock timestamps as explicit numeric
parameters, and Python `float` as `ℚ`.  Fields that only feed logging are
omitted.  Theorems follow after all definitions.
-/

/-- States of the safety state machine (`SafetyState` enum). -/
inductive SafetyState where
  | INIT
  | NORMAL
  | WARNING
  | SLOW_50
  | SLOW_25
  | STOP
  | ESTOP
  | RECOVERY
  | FALLBACK
deriving DecidableEq, Repr, Fintype

/-- Numeric protocol code of a state (`SafetyState.code`). -/
def SafetyState.code : SafetyState → Nat
  | .INIT => 0x00
  | .NORMAL => 0x01
  | .WARNING => 0x02
  | .SLOW_50 => 0x03
  | .SLOW_25 => 0x04
  | .STOP => 0x10
  | .ESTOP => 0xFF
  | .RECOVERY => 0x20
  | .FALLBACK => 0xF0

/-- Maximum authorised speed in percent (`SafetyState.max_speed_percent`). -/
def SafetyState.max_speed_percent : SafetyState → Nat
  | .INIT => 0
  | .NORMAL => 100
  | .WARNING => 100
  | .SLOW_50 => 50
  | .SLOW_25 => 25
  | .STOP => 0
  | .ESTOP => 0
  | .RECOVERY => 10
  | .FALLBACK => 50

/-- Whether production is allowed in a state (`SafetyState.allows_production`). -/
def SafetyState.allows_production (s : SafetyState) : Bool :=
  s = .NORMAL ∨ s = .WARNING ∨ s = .SLOW_50 ∨ s = .SLOW_25

/-- The legal transition table (`SafetyStateMachine.VALID_TRANSITIONS`). -/
def VALID_TRANSITIONS : SafetyState → List SafetyState
  | .INIT => [.NORMAL, .FALLBACK, .ESTOP]
  | .NORMAL => [.WARNING, .SLOW_50, .SLOW_25, .STOP, .ESTOP, .FALLBACK]
  | .WARNING => [.NORMAL, .SLOW_50, .SLOW_25, .STOP, .ESTOP, .FALLBACK]
  | .SLOW_50 => [.NORMAL, .WARNING, .SLOW_25, .STOP, .ESTOP, .FALLBACK]
  | .SLOW_25 => [.NORMAL, .WARNING, .SLOW_50, .STOP, .ESTOP, .FALLBACK]
  | .STOP => [.RECOVERY, .ESTOP, .FALLBACK]
  | .ESTOP => [.RECOVERY]
  | .RECOVERY => [.NORMAL, .STOP, .ESTOP, .FALLBACK]
  | .FALLBACK => [.NORMAL, .RECOVERY, .ESTOP]

/-- A transition record (`StateTransition`).  The `forced` field is ghost
state recording the `force` argument of the `transition_to` call that
produced the record; the Python record does not store it, but it is a pure
function of the call site. -/
structure StateTransition where
  from_state : SafetyState
  to_state : SafetyState
  trigger : String
  forced : Bool
deriving DecidableEq, Repr

/-- The mutable state of `SafetyStateMachine`.  Wall-clock time is modelled
by explicit `Nat` instants passed to each operation. -/
structure SafetyStateMachine where
  current_state : SafetyState
  previous_state : Option SafetyState
  state_entered_at : Nat
  history : List StateTransition
  max_history : Nat
deriving DecidableEq, Repr

/-- A machine as built by `SafetyStateMachine.__init__` with defaults. -/
def initMachine (initial_state : SafetyState) (now : Nat) : SafetyStateMachine :=
  { current_state := initial_state
    previous_state := none
    state_entered_at := now
    history := []
    max_history := 1000 }

/-- Guard `SafetyStateMachine.can_transition_to`. -/
def can_transition_to (m : SafetyStateMachine) (target : SafetyState) : Bool :=
  if m.current_state = target then true
  else target ∈ VALID_TRANSITIONS m.current_state

/-- Core transition operation `SafetyStateMachine.transition_to`.  Returns
the Python return value paired with the machine after the call. -/
def transition_to (m : SafetyStateMachine) (target : SafetyState)
    (trigger : String) (force : Bool) (now : Nat) :
    Bool × SafetyStateMachine :=
  if m.current_state = target then (true, m)
  else if ¬ force ∧ ¬ can_transition_to m target then (false, m)
  else
    let t : StateTransition :=
      { from_state := m.current_state
        to_state := target
        trigger := trigger
        forced := force }
    let h := m.history ++ [t]
    let h := if m.max_history < h.length then h.drop (h.length - m.max_history) else h
    (true,
      { current_state := target
        previous_state := some m.current_state
        state_entered_at := now
        history := h
        max_history := m.max_history })

/-- Convenience request `request_estop` (always forced, target `ESTOP`). -/
def request_estop (m : SafetyStateMachine) (trigger : String) (now : Nat) :
    Bool × SafetyStateMachine :=
  transition_to m .ESTOP trigger true now

/-- Convenience request `request_stop`. -/
def request_stop (m : SafetyStateMachine) (trigger : String) (now : Nat) :
    Bool × SafetyStateMachine :=
  transition_to m .STOP trigger false now

/-- Convenience request `request_slow` (`SLOW_25` when `speed_percent ≤ 25`,
otherwise `SLOW_50`). -/
def request_slow (m : SafetyStateMachine) (speed_percent : Nat)
    (trigger : String) (now : Nat) : Bool × SafetyStateMachine :=
  transition_to m (if speed_percent ≤ 25 then .SLOW_25 else .SLOW_50) trigger false now

/-- Convenience request `request_recovery`. -/
def request_recovery (m : SafetyStateMachine) (trigger : String) (now : Nat) :
    Bool × SafetyStateMachine :=
  transition_to m .RECOVERY trigger false now

/-- Convenience request `request_normal`. -/
def request_normal (m : SafetyStateMachine) (trigger : String) (now : Nat) :
    Bool × SafetyStateMachine :=
  transition_to m .NORMAL trigger false now

/-- Convenience request `enter_fallback` (always forced, target `FALLBACK`). -/
def enter_fallback (m : SafetyStateMachine) (trigger : String) (now : Nat) :
    Bool × SafetyStateMachine :=
  transition_to m .FALLBACK trigger true now

/-- One call against the state-machine API: either a plain (non-forced)
`transition_to` or one of the convenience requests.  `force=true` is only
reachable through `requestEstop` and `enterFallback`, mirroring the
"`force` MUST only be used by `request_estop` and `enter_fallback`" rule. -/
inductive SMCommand where
  | transitionTo (target : SafetyState) (trigger : String)
  | requestEstop (trigger : String)
  | requestStop (trigger : String)
  | requestSlow (speed_percent : Nat) (trigger : String)
  | requestRecovery (trigger : String)
  | requestNormal (trigger : String)
  | enterFallback (trigger : String)
deriving DecidableEq, Repr

/-- Execute one API call at a given instant. -/
def runCommand (m : SafetyStateMachine) : SMCommand → Nat → SafetyStateMachine
  | SMCommand.transitionTo target trigger, now => (transition_to m target trigger false now).2
  | SMCommand.requestEstop trigger, now => (request_estop m trigger now).2
  | SMCommand.requestStop trigger, now => (request_stop m trigger now).2
  | SMCommand.requestSlow p trigger, now => (request_slow m p trigger now).2
  | SMCommand.requestRecovery trigger, now => (request_recovery m trigger now).2
  | SMCommand.requestNormal trigger, now => (request_normal m trigger now).2
  | SMCommand.enterFallback trigger, now => (enter_fallback m trigger now).2

/-- Execute a sequence of timestamped API calls. -/
def runCommands (m : SafetyStateMachine) : List (SMCommand × Nat) → SafetyStateMachine
  | [] => m
  | (c, now) :: rest => runCommands (runCommand m c now) rest

/-- Raw value carried by a signal.  Python values are dynamically typed;
the signals of this system carry booleans, integers, reals, enum strings,
or `None`. -/
inductive SignalValue where
  | vBool (b : Bool)
  | vInt (n : Int)
  | vFloat (q : ℚ)
  | vStr (s : String)
  | vNone
deriving DecidableEq, Repr

/-- Signal quality (`SignalQuality` enum). -/
inductive SignalQuality where
  | GOOD
  | DEGRADED
  | BAD
  | TIMEOUT
  | UNKNOWN
deriving DecidableEq, Repr

/-- Signal source (`SignalSource` enum). -/
inductive SignalSource where
  | ROBOT
  | PLC_SAFETY
  | SCANNER
  | VISION
  | FUMES
  | WELDING
  | WEARABLE
  | ROBOSAFE
deriving DecidableEq, Repr

/-- A live observation (`Signal` dataclass).  Timestamps are instants in
milliseconds, modelled as `ℚ`. -/
structure Signal where
  id : String
  name : String
  source : SignalSource
  value : SignalValue
  timestamp : ℚ
  quality : SignalQuality
  unit : String
  min_value : Option ℚ
  max_value : Option ℚ
  fail_safe_value : SignalValue
deriving DecidableEq, Repr

/-- Validity predicate `Signal.is_valid`. -/
def Signal.is_valid (s : Signal) : Bool :=
  s.quality = SignalQuality.GOOD ∨ s.quality = SignalQuality.DEGRADED

/-- Static metadata of a signal (`SignalDefinition` dataclass). -/
structure SignalDefinition where
  id : String
  name : String
  source : SignalSource
  data_type : String
  unit : String
  frequency_hz : ℚ
  timeout_ms : ℚ
  min_value : Option ℚ
  max_value : Option ℚ
  fail_safe_value : SignalValue
  critical : Bool
deriving DecidableEq, Repr

/-- Insertion into a Python `dict` modelled as an association list:
overwrite in place when the key exists, append otherwise. -/
def dictInsert {α : Type} (k : String) (v : α) : List (String × α) → List (String × α)
  | [] => [(k, v)]
  | (k', v') :: t => if k' = k then (k, v) :: t else (k', v') :: dictInsert k v t

/-- Lookup in a Python `dict` modelled as an association list. -/
def dictFind {α : Type} (k : String) : List (String × α) → Option α
  | [] => none
  | (k', v') :: t => if k' = k then some v' else dictFind k t

/-- The mutable state of `SignalManager` (definitions, observations,
counters). -/
structure SignalManager where
  definitions : List (String × SignalDefinition)
  signals : List (String × Signal)
  update_count : Nat
  timeout_count : Nat
deriving DecidableEq, Repr

/-- A freshly constructed `SignalManager`. -/
def emptyManager : SignalManager :=
  { definitions := [], signals := [], update_count := 0, timeout_count := 0 }

/-- Initial observation stored by `register_signal`: the fail-safe value with
quality `UNKNOWN`, timestamped at registration time. -/
def initialSignal (d : SignalDefinition) (now : ℚ) : Signal :=
  { id := d.id
    name := d.name
    source := d.source
    value := d.fail_safe_value
    timestamp := now
    quality := SignalQuality.UNKNOWN
    unit := d.unit
    min_value := d.min_value
    max_value := d.max_value
    fail_safe_value := d.fail_safe_value }

/-- `SignalManager.register_signal`: store the definition and (re)initialise
the observation with the fail-safe value and quality `UNKNOWN`. -/
def register_signal (m : SignalManager) (d : SignalDefinition) (now : ℚ) :
    SignalManager :=
  { m with
    definitions := dictInsert d.id d m.definitions
    signals := dictInsert d.id (initialSignal d now) m.signals }

/-- `SignalManager.update_signal`: reject unknown ids, otherwise rebuild the
observation from the registered definition.  Returns the Python return value
paired with the manager after the call. -/
def update_signal (m : SignalManager) (signal_id : String) (value : SignalValue)
    (quality : SignalQuality) (now : ℚ) : Bool × SignalManager :=
  match dictFind signal_id m.definitions with
  | none => (false, m)
  | some d =>
    let s : Signal :=
      { id := signal_id
        name := d.name
        source := d.source
        value := value
        timestamp := now
        quality := quality
        unit := d.unit
        min_value := d.min_value
        max_value := d.max_value
        fail_safe_value := d.fail_safe_value }
    (true,
      { m with
        signals := dictInsert signal_id s m.signals
        update_count := m.update_count + 1 })

/-- `SignalManager.get_signal`. -/
def get_signal (m : SignalManager) (signal_id : String) : Option Signal :=
  dictFind signal_id m.signals

/-- `SignalManager.get_signal_value`: fail-safe substitution on read. -/
def get_signal_value (m : SignalManager) (signal_id : String)
    (default : SignalValue) (use_failsafe_if_invalid : Bool) : SignalValue :=
  match dictFind signal_id m.signals with
  | none => default
  | some s =>
    if ¬ s.is_valid ∧ use_failsafe_if_invalid then s.fail_safe_value
    else s.value

/-- The observation written by the watchdog when a signal times out: the
fail-safe value with quality `TIMEOUT`; the stale timestamp is kept and the
range bounds are dropped (the Python replacement omits them, so they take
the dataclass defaults). -/
def timeoutSignal (signal_id : String) (s : Signal) : Signal :=
  { id := signal_id
    name := s.name
    source := s.source
    value := s.fail_safe_value
    timestamp := s.timestamp
    quality := SignalQuality.TIMEOUT
    unit := s.unit
    min_value := none
    max_value := none
    fail_safe_value := s.fail_safe_value }

/-- Whether one watchdog pass at instant `now` replaces the entry
`(signal_id, s)`: its definition exists, its age exceeds the timeout, and its
quality is not already `TIMEOUT`. -/
def timesOut (defs : List (String × SignalDefinition)) (now : ℚ)
    (p : String × Signal) : Bool :=
  match dictFind p.1 defs with
  | none => false
  | some d => d.timeout_ms < now - p.2.timestamp ∧ p.2.quality ≠ SignalQuality.TIMEOUT

/-- One watchdog pass, `SignalManager._check_timeouts`: every stale
observation not already at quality `TIMEOUT` is replaced by its fail-safe
observation and counted. -/
def check_timeouts (m : SignalManager) (now : ℚ) : SignalManager :=
  { m with
    signals := m.signals.map (fun p =>
      if timesOut m.definitions now p then (p.1, timeoutSignal p.1 p.2) else p)
    timeout_count := m.timeout_count + m.signals.countP (fun p => timesOut m.definitions now p) }

/-- Snapshot of raw values used by the rule engine
(`RuleEngine.get_signal_values`). -/
def get_signal_values (m : SignalManager) : List (String × SignalValue) :=
  m.signals.map (fun p => (p.1, p.2.value))

/-- Predicate of rule RS-002 (`get_welding_cell_rules`):
`lambda s: s.get("plc_heartbeat") is None`.  `dict.get` yields `None` when
the key is absent, and the test also holds when the stored value is the
Python `None`. -/
def RS002_condition (snapshot : List (String × SignalValue)) : Bool :=
  match dictFind "plc_heartbeat" snapshot with
  | none => true
  | some SignalValue.vNone => true
  | some _ => false

/-- Effect of one rule-engine evaluation of RS-002 on the state machine
(`RuleEngine.evaluate_rule` + `_execute_action` for the `ESTOP` action): when
the predicate holds on the current snapshot, `request_estop` is issued. -/
def apply_RS002 (m : SignalManager) (sm : SafetyStateMachine) (now : Nat) :
    SafetyStateMachine :=
  if RS002_condition (get_signal_values m) then (request_estop sm "Rule RS-002" now).2
  else sm

/-- The `plc_heartbeat` definition from `get_welding_cell_signals`. -/
def plc_heartbeat_def : SignalDefinition :=
  { id := "plc_heartbeat"
    name := "Heartbeat PLC"
    source := SignalSource.PLC_SAFETY
    data_type := "int"
    unit := ""
    frequency_hz := 100
    timeout_ms := 500
    min_value := none
    max_value := none
    fail_safe_value := SignalValue.vInt 0
    critical := true }

/-- Risk level (`RiskLevel` enum of the analysis agent). -/
inductive RiskLevel where
  | NONE
  | LOW
  | MEDIUM
  | HIGH
  | CRITICAL
deriving DecidableEq, Repr

/-- Time-to-collision computed by `AnalysisAgent._calculate_collision_risk`:
`distance / robot_speed` when `robot_speed > 0 and distance < 5000`,
otherwise `float('inf')` (modelled as `none`). -/
def collision_ttc (distance robot_speed : ℚ) : Option ℚ :=
  if 0 < robot_speed ∧ distance < 5000 then some (distance / robot_speed)
  else none

/-- Score and level assigned by `AnalysisAgent._calculate_collision_risk`
from the time-to-collision band (an infinite TTC fails every band test and
falls through to the final `else`). -/
def calculate_collision_risk (distance robot_speed : ℚ) : ℚ × RiskLevel :=
  match collision_ttc distance robot_speed with
  | some t =>
    if t < 1/2 then (100, RiskLevel.CRITICAL)
    else if t < 1 then (80, RiskLevel.HIGH)
    else if t < 2 then (50, RiskLevel.MEDIUM)
    else if t < 5 then (25, RiskLevel.LOW)
    else (0, RiskLevel.NONE)
  | none => (0, RiskLevel.NONE)

/-- Action types of the decision agent (`ActionType` IntEnum). -/
inductive ActionType where
  | NONE
  | LOG
  | ALERT
  | SLOW_50
  | SLOW_25
  | STOP
  | ESTOP
deriving DecidableEq, Repr

/-- Integer value of an `ActionType` (IntEnum member values). -/
def ActionType.val : ActionType → Nat
  | .NONE => 0
  | .LOG => 1
  | .ALERT => 2
  | .SLOW_50 => 3
  | .SLOW_25 => 4
  | .STOP => 5
  | .ESTOP => 6

/-- Action urgency of the decision agent (`ActionUrgency` IntEnum). -/
inductive ActionUrgency where
  | LOW
  | NORMAL
  | HIGH
  | IMMEDIATE
deriving DecidableEq, Repr

/-- Decision thresholds (`DecisionConfig`), scores in 0–100. -/
structure DecisionConfig where
  threshold_alert : ℚ
  threshold_slow_50 : ℚ
  threshold_slow_25 : ℚ
  threshold_stop : ℚ
  threshold_estop : ℚ
  min_confidence : ℚ
deriving DecidableEq, Repr

/-- The default `DecisionConfig` field values. -/
def defaultDecisionConfig : DecisionConfig :=
  { threshold_alert := 25
    threshold_slow_50 := 50
    threshold_slow_25 := 65
    threshold_stop := 80
    threshold_estop := 95
    min_confidence := 7/10 }

/-- Threshold ladder `DecisionAgent._determine_action`. -/
def determine_action (cfg : DecisionConfig) (score : ℚ) :
    ActionType × ActionUrgency :=
  if cfg.threshold_estop ≤ score then (ActionType.ESTOP, ActionUrgency.IMMEDIATE)
  else if cfg.threshold_stop ≤ score then (ActionType.STOP, ActionUrgency.IMMEDIATE)
  else if cfg.threshold_slow_25 ≤ score then (ActionType.SLOW_25, ActionUrgency.HIGH)
  else if cfg.threshold_slow_50 ≤ score then (ActionType.SLOW_50, ActionUrgency.HIGH)
  else if cfg.threshold_alert ≤ score then (ActionType.ALERT, ActionUrgency.NORMAL)
  else (ActionType.NONE, ActionUrgency.LOW)

/-- Confidence gate and action selection of
`DecisionAgent._evaluate_and_recommend`: below `min_confidence`, or when the
ladder yields `NONE`, no recommendation is produced; otherwise the selected
action and urgency are emitted. -/
def evaluate_and_recommend (cfg : DecisionConfig) (score confidence : ℚ) :
    Option (ActionType × ActionUrgency) :=
  if confidence < cfg.min_confidence then none
  else if (determine_action cfg score).1 = ActionType.NONE then none
  else some (determine_action cfg score)

/-- A pending recommendation as queued by
`OrchestratorAgent._handle_recommendation` (the payload fields read during
arbitration, plus the reception timestamp it stamps). -/
structure Recommendation where
  id : String
  action : String
  urgency : ActionUrgency
  risk_score : ℚ
  received_at : ℚ
deriving DecidableEq, Repr

/-- `urgency_order` mapping of `_arbitrate_recommendations`
(`IMMEDIATE` first). -/
def urgency_order : ActionUrgency → Nat
  | ActionUrgency.IMMEDIATE => 0
  | ActionUrgency.HIGH => 1
  | ActionUrgency.NORMAL => 2
  | ActionUrgency.LOW => 3

/-- Comparison of the Python sort keys
`(urgency_order[urgency], -risk_score, received_at)`: true when the key of
`a` is less than or equal to the key of `b` lexicographically. -/
def recKeyLE (a b : Recommendation) : Bool :=
  urgency_order a.urgency < urgency_order b.urgency ∨
    (urgency_order a.urgency = urgency_order b.urgency ∧
      (b.risk_score < a.risk_score ∨
        (a.risk_score = b.risk_score ∧ a.received_at ≤ b.received_at)))

/-- Insertion step of a stable sort: place `a` before the first element
whose key is not smaller, as Python's stable `sorted` does. -/
def stableInsert {α : Type} (le : α → α → Bool) (a : α) : List α → List α
  | [] => [a]
  | b :: l => if le a b then a :: b :: l else b :: stableInsert le a l

/-- Stable sort modelling Python's `sorted` with key comparison `le`. -/
def stableSort {α : Type} (le : α → α → Bool) : List α → List α
  | [] => []
  | a :: l => stableInsert le a (stableSort le l)

/-- `OrchestratorAgent._arbitrate_recommendations`: sort the pending list by
`(urgency desc, risk_score desc, received_at asc)`, select the head, clear
the pending list.  Returns the selected recommendation and the pending list
after the call. -/
def arbitrate_recommendations (pending : List Recommendation) :
    Option Recommendation × List Recommendation :=
  ((stableSort recKeyLE pending).head?, [])

/-- First element of a list minimal for `le` (earliest among `le`-ties);
characterises the head of a stable sort. -/
def firstMin {α : Type} (le : α → α → Bool) : List α → Option α
  | [] => none
  | a :: l =>
    match firstMin le l with
    | none => some a
    | some b => some (if le a b then a else b)

/-- Strict pair order used by the arbitration-stability statement: the
`(urgency, risk_score)` pair of `r` is strictly lower (less urgent, or
equally urgent with strictly smaller score) than that of `w`. -/
def pairLower (r w : Recommendation) : Bool :=
  urgency_order w.urgency < urgency_order r.urgency ∨
    (urgency_order r.urgency = urgency_order w.urgency ∧ r.risk_score < w.risk_score)

/-- A concrete low-urgency recommendation (arbitration example). -/
def recAlertLow : Recommendation :=
  { id := "REC-00001", action := "ALERT", urgency := ActionUrgency.NORMAL
    risk_score := 90, received_at := 0 }

/-- A concrete immediate-urgency recommendation (arbitration example). -/
def recEstopImmediate : Recommendation :=
  { id := "REC-00002", action := "ESTOP", urgency := ActionUrgency.IMMEDIATE
    risk_score := 10, received_at := 2 }

/-- A concrete high-urgency recommendation (arbitration example). -/
def recSlowHigh : Recommendation :=
  { id := "REC-00003", action := "SLOW_50", urgency := ActionUrgency.HIGH
    risk_score := 55, received_at := 1 }

/-- Predicate of the history invariant: a recorded transition is either in
the legal table or was forced, and forced records target only `ESTOP`
(`request_estop`) or `FALLBACK` (`enter_fallback`). -/
def legalHistoryEntry (e : StateTransition) : Prop :=
  e.to_state ∈ VALID_TRANSITIONS e.from_state ∨
    (e.forced = true ∧ (e.to_state = SafetyState.ESTOP ∨ e.to_state = SafetyState.FALLBACK))

/-- The manager before the watchdog pass of the heartbeat-timeout scenario:
welding-cell `plc_heartbeat` registered at instant 0 and refreshed with a
live value at instant 0. -/
def updatedHeartbeatManager : SignalManager :=
  (update_signal (register_signal emptyManager plc_heartbeat_def 0)
      "plc_heartbeat" (SignalValue.vInt 12345) SignalQuality.GOOD 0).2

/-- The manager used as failing input for the heartbeat-timeout scenario:
the refreshed manager after one watchdog pass at instant 600 ms (past the
500 ms timeout). -/
def heartbeatScenario : SignalManager :=
  check_timeouts updatedHeartbeatManager 600

/-- A manager holding a `plc_heartbeat` observation of quality `BAD`
written at instant 0. -/
def badQualityManager : SignalManager :=
  (update_signal (register_signal emptyManager plc_heartbeat_def 0)
      "plc_heartbeat" (SignalValue.vInt 7) SignalQuality.BAD 0).2

/-- The observation stored in `updatedHeartbeatManager`. -/
def goodHeartbeatSignal : Signal :=
  { id := "plc_heartbeat", name := "Heartbeat PLC"
    source := SignalSource.PLC_SAFETY, value := SignalValue.vInt 12345
    timestamp := 0, quality := SignalQuality.GOOD, unit := ""
    min_value := none, max_value := none
    fail_safe_value := SignalValue.vInt 0 }

/-- The observation stored in `badQualityManager`. -/
def badHeartbeatSignal : Signal :=
  { id := "plc_heartbeat", name := "Heartbeat PLC"
    source := SignalSource.PLC_SAFETY, value := SignalValue.vInt 7
    timestamp := 0, quality := SignalQuality.BAD, unit := ""
    min_value := none, max_value := none
    fail_safe_value := SignalValue.vInt 0 }

/-- The failing input for re-registration: `plc_heartbeat` registered at
instant 0 and refreshed with value 42, quality `GOOD`, at instant 100. -/
def updatedOnceManager : SignalManager :=
  (update_signal (register_signal emptyManager plc_heartbeat_def 0)
      "plc_heartbeat" (SignalValue.vInt 42) SignalQuality.GOOD 100).2

/-- Lookup after inserting the same key finds the inserted value. -/
theorem dictFind_dictInsert {α : Type} (k : String) (v : α)
    (l : List (String × α)) : dictFind k (dictInsert k v l) = some v := by
  induction l with
  | nil => simp [dictInsert, dictFind]
  | cons p t ih =>
    obtain ⟨k', v'⟩ := p
    by_cases h : k' = k
    · simp [dictInsert, dictFind, h]
    · simp [dictInsert, dictFind, h, ih]

/-- Inserting a value already present at its key leaves the dictionary
unchanged. -/
theorem dictInsert_of_find {α : Type} (k : String) (v : α)
    (l : List (String × α)) (h : dictFind k l = some v) :
    dictInsert k v l = l := by
  induction l with
  | nil => simp [dictFind] at h
  | cons p t ih =>
    obtain ⟨k', v'⟩ := p
    by_cases hk : k' = k
    · subst hk
      simp [dictFind] at h
      simp [dictInsert, h]
    · simp [dictFind, hk] at h
      simp [dictInsert, hk, ih h]

/-- Length is preserved by overwriting an existing key. -/
theorem dictInsert_length_of_find {α : Type} (k : String) (v w : α)
    (l : List (String × α)) (h : dictFind k l = some w) :
    (dictInsert k v l).length = l.length := by
  induction l with
  | nil => simp [dictFind] at h
  | cons p t ih =>
    obtain ⟨k', v'⟩ := p
    by_cases hk : k' = k
    · simp [dictInsert, hk]
    · simp [dictFind, hk] at h
      simp [dictInsert, hk, ih h]

/-- Lookup commutes with a key-preserving map over the entries. -/
theorem dictFind_map {α β : Type} (g : String → α → β) (k : String)
    (l : List (String × α)) :
    dictFind k (l.map (fun p => (p.1, g p.1 p.2))) = (dictFind k l).map (g k) := by
  induction l with
  | nil => simp [dictFind]
  | cons p t ih =>
    obtain ⟨k', v'⟩ := p
    by_cases h : k' = k
    · subst h
      simp [dictFind]
    · simp [dictFind, h, ih]

/-- Shape of one watchdog pass at a given id: the stored observation is
mapped through the timeout substitution. -/
theorem check_timeouts_get_signal (m : SignalManager) (now : ℚ) (sid : String) :
    get_signal (check_timeouts m now) sid =
      (get_signal m sid).map (fun s =>
        if timesOut m.definitions now (sid, s) then timeoutSignal sid s else s) := by
  have hfun : (fun p : String × Signal =>
      if timesOut m.definitions now p then (p.1, timeoutSignal p.1 p.2) else p) =
      (fun p : String × Signal =>
        (p.1, if timesOut m.definitions now (p.1, p.2) then timeoutSignal p.1 p.2
              else p.2)) := by
    funext p
    by_cases h : timesOut m.definitions now p
    · simp [Prod.mk.eta, h]
    · simp [Prod.mk.eta, h]
  simp only [check_timeouts, get_signal]
  rw [hfun]
  exact dictFind_map
    (fun k s => if timesOut m.definitions now (k, s) then timeoutSignal k s else s)
    sid m.signals

/-- Looking a key up in the rule-engine snapshot yields the stored raw
value. -/
theorem get_signal_values_find (m : SignalManager) (k : String) :
    dictFind k (get_signal_values m) = (get_signal m k).map Signal.value := by
  simp only [get_signal_values, get_signal]
  exact dictFind_map (fun _ s => s.value) k m.signals

/-- C2: the claim as stated fails on the code: `SLOW_50 → NORMAL` is in the
legal table, avoids `RECOVERY` on both sides, and raises the maximum speed
from 50 to 100. -/
theorem C2_counterexample :
    SafetyState.NORMAL ∈ VALID_TRANSITIONS SafetyState.SLOW_50 ∧
    SafetyState.SLOW_50 ≠ SafetyState.RECOVERY ∧
    SafetyState.NORMAL ≠ SafetyState.RECOVERY ∧
    ¬ SafetyState.NORMAL.max_speed_percent ≤ SafetyState.SLOW_50.max_speed_percent := by
  decide

/-- C2 (amended): max speed is monotone non-increasing along every legal
transition that avoids `RECOVERY` on both sides and whose target is none of
the speed-raising re-entry states `NORMAL`, `WARNING`, `SLOW_50`,
`FALLBACK`. -/
theorem C2_speed_monotone_amended (s t : SafetyState)
    (hlegal : t ∈ VALID_TRANSITIONS s)
    (hs : s ≠ SafetyState.RECOVERY) (ht : t ≠ SafetyState.RECOVERY)
    (htgt : t ∉ [SafetyState.NORMAL, SafetyState.WARNING,
                 SafetyState.SLOW_50, SafetyState.FALLBACK]) :
    t.max_speed_percent ≤ s.max_speed_percent := by
  revert hlegal hs ht htgt
  revert s t
  decide

/-- Witness for `C2_speed_monotone_amended` at the transition
`NORMAL → STOP`. -/
theorem C2_speed_monotone_amended_witness :
    SafetyState.STOP.max_speed_percent ≤ SafetyState.NORMAL.max_speed_percent :=
  C2_speed_monotone_amended SafetyState.NORMAL SafetyState.STOP
    (by decide) (by decide) (by decide) (by decide)

/-- C4: `transition_to` with the current state as target is a no-op
returning `true`; without `force`, an illegal target is rejected with
`false` and the machine (state, previous state, duration timer, history) is
returned unchanged. -/
theorem C4_noop_and_reject (m : SafetyStateMachine) (target : SafetyState)
    (trigger : String) (force : Bool) (now : Nat) :
    (m.current_state = target →
      transition_to m target trigger force now = (true, m)) ∧
    (m.current_state ≠ target → target ∉ VALID_TRANSITIONS m.current_state →
      transition_to m target trigger false now = (false, m)) := by
  constructor
  · intro h
    simp [transition_to, h]
  · intro h h2
    simp [transition_to, h, can_transition_to, h2]

/-- C7: with the default configuration, a global risk of sufficient
confidence maps through the threshold ladder to exactly one recommendation
(`≥95` EStop/Immediate, `≥80` Stop/Immediate, `≥65` Slow25/High, `≥50`
Slow50/High, `≥25` Alert/Normal, below 25 none), and any confidence below
`min_confidence = 0.7` yields no recommendation regardless of score. -/
theorem C7_threshold_ladder (score confidence : ℚ) :
    ((7 : ℚ)/10 ≤ confidence →
      ((95 ≤ score →
          evaluate_and_recommend defaultDecisionConfig score confidence =
            some (ActionType.ESTOP, ActionUrgency.IMMEDIATE)) ∧
       (80 ≤ score → score < 95 →
          evaluate_and_recommend defaultDecisionConfig score confidence =
            some (ActionType.STOP, ActionUrgency.IMMEDIATE)) ∧
       (65 ≤ score → score < 80 →
          evaluate_and_recommend defaultDecisionConfig score confidence =
            some (ActionType.SLOW_25, ActionUrgency.HIGH)) ∧
       (50 ≤ score → score < 65 →
          evaluate_and_recommend defaultDecisionConfig score confidence =
            some (ActionType.SLOW_50, ActionUrgency.HIGH)) ∧
       (25 ≤ score → score < 50 →
          evaluate_and_recommend defaultDecisionConfig score confidence =
            some (ActionType.ALERT, ActionUrgency.NORMAL)) ∧
       (score < 25 →
          evaluate_and_recommend defaultDecisionConfig score confidence = none))) ∧
    (confidence < (7 : ℚ)/10 →
      evaluate_and_recommend defaultDecisionConfig score confidence = none) := by
  constructor
  · intro hc
    have hc' : ¬ confidence < (7 : ℚ)/10 := not_lt.mpr hc
    refine ⟨fun h1 => ?_, fun h1 h2 => ?_, fun h1 h2 => ?_,
            fun h1 h2 => ?_, fun h1 h2 => ?_, fun h1 => ?_⟩ <;>
      · simp only [evaluate_and_recommend, determine_action, defaultDecisionConfig]
        rw [if_neg hc']
        split_ifs <;> first | rfl | (exfalso; linarith) | simp_all
  · intro hc
    simp only [evaluate_and_recommend, defaultDecisionConfig]
    rw [if_pos hc]

/-- Witness for `C7_threshold_ladder`: score 100 at confidence 1 yields the
EStop/Immediate recommendation. -/
theorem C7_threshold_ladder_witness :
    evaluate_and_recommend defaultDecisionConfig 100 1 =
      some (ActionType.ESTOP, ActionUrgency.IMMEDIATE) :=
  ((C7_threshold_ladder 100 1).1 (by norm_num)).1 (by norm_num)

/-- C8: the claim as stated fails on the code: at distance 6000 mm and
speed 2000 mm/s the speed is positive yet the computed TTC is infinite
(the code also forces infinity whenever `distance ≥ 5000`), so the score is
0 instead of the 25/Low that `ttc = 3 s` would give. -/
theorem C8_counterexample :
    collision_ttc 6000 2000 = none ∧
    ¬ (2000 : ℚ) ≤ 0 ∧
    (6000 : ℚ) / 2000 = 3 ∧
    calculate_collision_risk 6000 2000 = (0, RiskLevel.NONE) := by
  refine ⟨?_, by norm_num, by norm_num, ?_⟩
  · simp only [collision_ttc]
    rw [if_neg]
    rintro ⟨-, h⟩
    norm_num at h
  · simp only [calculate_collision_risk, collision_ttc]
    rw [if_neg]
    rintro ⟨-, h⟩
    norm_num at h

/-- C8 (amended): TTC is infinite exactly when the speed is non-positive or
the distance is at least 5000 mm; otherwise it is `distance / speed`, and
the (score, level) bands are `<0.5 s → 100/Critical`, `<1 s → 80/High`,
`<2 s → 50/Medium`, `<5 s → 25/Low`, else `0/None`, with an infinite TTC
scoring `0/None`. -/
theorem C8_collision_bands_amended (distance robot_speed : ℚ) :
    (collision_ttc distance robot_speed = none ↔
      robot_speed ≤ 0 ∨ 5000 ≤ distance) ∧
    (0 < robot_speed → distance < 5000 →
      collision_ttc distance robot_speed = some (distance / robot_speed)) ∧
    (∀ t, collision_ttc distance robot_speed = some t →
      ((t < 1/2 →
          calculate_collision_risk distance robot_speed = (100, RiskLevel.CRITICAL)) ∧
       (1/2 ≤ t → t < 1 →
          calculate_collision_risk distance robot_speed = (80, RiskLevel.HIGH)) ∧
       (1 ≤ t → t < 2 →
          calculate_collision_risk distance robot_speed = (50, RiskLevel.MEDIUM)) ∧
       (2 ≤ t → t < 5 →
          calculate_collision_risk distance robot_speed = (25, RiskLevel.LOW)) ∧
       (5 ≤ t →
          calculate_collision_risk distance robot_speed = (0, RiskLevel.NONE)))) ∧
    (collision_ttc distance robot_speed = none →
      calculate_collision_risk distance robot_speed = (0, RiskLevel.NONE)) := by
  refine ⟨?_, ?_, ?_, ?_⟩
  · constructor
    · intro hnone
      by_contra hcon
      push_neg at hcon
      simp [collision_ttc, hcon.1, hcon.2] at hnone
    · intro h
      simp only [collision_ttc]
      rw [if_neg]
      rintro ⟨h1, h2⟩
      rcases h with h | h <;> linarith
  · intro h1 h2
    simp [collision_ttc, h1, h2]
  · intro t ht
    simp only [calculate_collision_risk, ht]
    refine ⟨fun b1 => ?_, fun b1 b2 => ?_, fun b1 b2 => ?_,
            fun b1 b2 => ?_, fun b1 => ?_⟩ <;>
      split_ifs <;> first | rfl | (exfalso; linarith)
  · intro h
    simp only [calculate_collision_risk, h]

/-- Witness for `C8_collision_bands_amended`: at distance 100 mm and speed
1000 mm/s the TTC is 0.1 s and the risk is 100/Critical. -/
theorem C8_collision_bands_amended_witness :
    calculate_collision_risk 100 1000 = (100, RiskLevel.CRITICAL) := by
  have h := C8_collision_bands_amended 100 1000
  have httc : collision_ttc 100 1000 = some (100/1000) :=
    h.2.1 (by norm_num) (by norm_num)
  exact (h.2.2.1 (100/1000) httc).1 (by norm_num)

/-- C10: a freshly registered signal stores quality `UNKNOWN`, and
`get_signal_value` with fail-safe substitution returns the definition's
fail-safe value — both right after registration and, in general, for every
stored quality outside {`GOOD`, `DEGRADED`} (so `UNKNOWN` reads exactly like
`BAD` and `TIMEOUT`). -/
theorem C10_unknown_failsafe_read (m : SignalManager) (d : SignalDefinition)
    (now : ℚ) (signal_id : String) (s : Signal) (default : SignalValue) :
    (get_signal (register_signal m d now) d.id = some (initialSignal d now) ∧
     (initialSignal d now).quality = SignalQuality.UNKNOWN ∧
     get_signal_value (register_signal m d now) d.id default true =
       d.fail_safe_value) ∧
    (get_signal m signal_id = some s →
      s.quality ≠ SignalQuality.GOOD → s.quality ≠ SignalQuality.DEGRADED →
      get_signal_value m signal_id default true = s.fail_safe_value) := by
  constructor
  · refine ⟨?_, rfl, ?_⟩
    · simp [get_signal, register_signal, dictFind_dictInsert]
    · simp [get_signal_value, register_signal, dictFind_dictInsert,
        Signal.is_valid, initialSignal]
  · intro hm h1 h2
    simp only [get_signal] at hm
    simp [get_signal_value, hm, Signal.is_valid, h1, h2]

/-- Witness for `C10_unknown_failsafe_read`: reading `plc_heartbeat` right
after registration, and reading it from a manager holding a `BAD`
observation, both return the fail-safe value 0 instead of the supplied
default. -/
theorem C10_unknown_failsafe_read_witness :
    get_signal_value (register_signal emptyManager plc_heartbeat_def 0)
      "plc_heartbeat" SignalValue.vNone true = SignalValue.vInt 0 ∧
    get_signal_value badQualityManager "plc_heartbeat" SignalValue.vNone true =
      SignalValue.vInt 0 := by
  constructor
  · exact (C10_unknown_failsafe_read emptyManager plc_heartbeat_def 0 "z"
      (initialSignal plc_heartbeat_def 0) SignalValue.vNone).1.2.2
  · exact (C10_unknown_failsafe_read badQualityManager plc_heartbeat_def 0
      "plc_heartbeat" badHeartbeatSignal
      SignalValue.vNone).2 (by decide) (by decide) (by decide)

/-- C1: the heartbeat-timeout scenario on the code: after the watchdog pass
the `plc_heartbeat` observation is `TIMEOUT` with the fail-safe value 0, so
the RS-002 predicate `s.get("plc_heartbeat") is None` sees the integer 0 and
evaluates to false — the rule does not fire and the state machine stays in
`NORMAL` instead of reaching `ESTOP`. -/
theorem C1_rs002_dead_predicate :
    (get_signal heartbeatScenario "plc_heartbeat").map Signal.quality =
      some SignalQuality.TIMEOUT ∧
    (get_signal heartbeatScenario "plc_heartbeat").map Signal.value =
      some (SignalValue.vInt 0) ∧
    RS002_condition (get_signal_values heartbeatScenario) = false ∧
    apply_RS002 heartbeatScenario (initMachine SafetyState.NORMAL 0) 600 =
      initMachine SafetyState.NORMAL 0 ∧
    (apply_RS002 heartbeatScenario (initMachine SafetyState.NORMAL 0)
      600).current_state ≠ SafetyState.ESTOP := by
  have hgood : get_signal updatedHeartbeatManager "plc_heartbeat" =
      some goodHeartbeatSignal := by decide
  have hdef : dictFind "plc_heartbeat" updatedHeartbeatManager.definitions =
      some plc_heartbeat_def := by decide
  have hts : timesOut updatedHeartbeatManager.definitions 600
      ("plc_heartbeat", goodHeartbeatSignal) = true := by
    simp [timesOut, hdef, plc_heartbeat_def, goodHeartbeatSignal]
    try norm_num
  have hscen : get_signal heartbeatScenario "plc_heartbeat" =
      some (timeoutSignal "plc_heartbeat" goodHeartbeatSignal) := by
    show get_signal (check_timeouts updatedHeartbeatManager 600) "plc_heartbeat" = _
    rw [check_timeouts_get_signal, hgood]
    simp [hts]
  have hcond : RS002_condition (get_signal_values heartbeatScenario) = false := by
    simp [RS002_condition, get_signal_values_find, hscen, timeoutSignal,
      goodHeartbeatSignal]
  refine ⟨?_, ?_, hcond, ?_, ?_⟩
  · rw [hscen]
    rfl
  · rw [hscen]
    rfl
  · simp [apply_RS002, hcond]
  · simp [apply_RS002, hcond, initMachine]

/-- C5: the claim as stated fails on the code: an observation of quality
`BAD` older than its timeout is replaced by the watchdog pass and its
quality becomes `TIMEOUT` — the watchdog does lower `BAD` to `TIMEOUT`. -/
theorem C5_counterexample :
    (get_signal badQualityManager "plc_heartbeat").map Signal.quality =
      some SignalQuality.BAD ∧
    (get_signal (check_timeouts badQualityManager 600) "plc_heartbeat").map
      Signal.quality = some SignalQuality.TIMEOUT ∧
    SignalQuality.TIMEOUT ≠ SignalQuality.BAD := by
  have hbad : get_signal badQualityManager "plc_heartbeat" =
      some badHeartbeatSignal := by decide
  have hdef : dictFind "plc_heartbeat" badQualityManager.definitions =
      some plc_heartbeat_def := by decide
  have hts : timesOut badQualityManager.definitions 600
      ("plc_heartbeat", badHeartbeatSignal) = true := by
    simp [timesOut, hdef, plc_heartbeat_def, badHeartbeatSignal]
    try norm_num
  refine ⟨?_, ?_, by decide⟩
  · rw [hbad]
    rfl
  · rw [check_timeouts_get_signal, hbad]
    simp [hts, timeoutSignal]

/-- C5 (amended): one watchdog pass replaces every observation older than
its definition's timeout whose quality is not already `TIMEOUT` — including
observations of quality `BAD` — with the fail-safe value at quality
`TIMEOUT`, leaves fresh and already-`TIMEOUT` observations alone, and
increments the timeout counter once per replaced observation. -/
theorem C5_watchdog_pass_amended (m : SignalManager) (now : ℚ) (sid : String)
    (d : SignalDefinition) (s : Signal)
    (hd : dictFind sid m.definitions = some d)
    (hs : get_signal m sid = some s) :
    (d.timeout_ms < now - s.timestamp → s.quality ≠ SignalQuality.TIMEOUT →
      get_signal (check_timeouts m now) sid = some (timeoutSignal sid s) ∧
      (timeoutSignal sid s).value = s.fail_safe_value ∧
      (timeoutSignal sid s).quality = SignalQuality.TIMEOUT) ∧
    (s.quality = SignalQuality.TIMEOUT →
      get_signal (check_timeouts m now) sid = some s) ∧
    (¬ d.timeout_ms < now - s.timestamp →
      get_signal (check_timeouts m now) sid = some s) ∧
    (check_timeouts m now).timeout_count =
      m.timeout_count +
        (m.signals.filter (fun p => timesOut m.definitions now p)).length := by
  refine ⟨?_, ?_, ?_, ?_⟩
  · intro h1 h2
    have ht : timesOut m.definitions now (sid, s) = true := by
      simp [timesOut, hd, h1, h2]
    refine ⟨?_, rfl, rfl⟩
    rw [check_timeouts_get_signal, hs]
    simp [ht]
  · intro h
    have ht : timesOut m.definitions now (sid, s) = false := by
      simp [timesOut, hd, h]
    rw [check_timeouts_get_signal, hs]
    simp [ht]
  · intro h
    have ht : timesOut m.definitions now (sid, s) = false := by
      simp [timesOut, hd, h]
    rw [check_timeouts_get_signal, hs]
    simp [ht]
  · simp [check_timeouts, List.countP_eq_length_filter]

/-- Witness for `C5_watchdog_pass_amended`: the `BAD` heartbeat observation
written at instant 0 is replaced at instant 600 by the fail-safe `TIMEOUT`
observation. -/
theorem C5_watchdog_pass_amended_witness :
    get_signal (check_timeouts badQualityManager 600) "plc_heartbeat" =
      some (timeoutSignal "plc_heartbeat" badHeartbeatSignal) :=
  ((C5_watchdog_pass_amended badQualityManager 600 "plc_heartbeat"
      plc_heartbeat_def badHeartbeatSignal (by decide) (by decide)).1
    (by norm_num [plc_heartbeat_def, badHeartbeatSignal]) (by decide)).1

/-- C9: the claim as stated fails on the code: re-registering the identical
definition at instant 200 resets the stored observation, discarding the
intervening update (quality `GOOD`, value 42) in favour of the fail-safe
value 0 at quality `UNKNOWN`; only the definition count is unchanged. -/
theorem C9_counterexample :
    (get_signal updatedOnceManager "plc_heartbeat").map Signal.quality =
      some SignalQuality.GOOD ∧
    (get_signal updatedOnceManager "plc_heartbeat").map Signal.value =
      some (SignalValue.vInt 42) ∧
    (get_signal (register_signal updatedOnceManager plc_heartbeat_def 200)
      "plc_heartbeat").map Signal.quality = some SignalQuality.UNKNOWN ∧
    (get_signal (register_signal updatedOnceManager plc_heartbeat_def 200)
      "plc_heartbeat").map Signal.value = some (SignalValue.vInt 0) ∧
    (register_signal updatedOnceManager plc_heartbeat_def 200).definitions.length =
      updatedOnceManager.definitions.length := by
  decide

/-- C9 (amended): re-registering a `SignalDefinition` identical to the one
already registered leaves the definition table unchanged (same entries, same
count) and the counters unchanged, but resets the stored observation to the
fail-safe value with quality `UNKNOWN`, discarding intervening updates. -/
theorem C9_reregister_amended (m : SignalManager) (d : SignalDefinition)
    (now : ℚ) (hd : dictFind d.id m.definitions = some d) :
    (register_signal m d now).definitions = m.definitions ∧
    (register_signal m d now).definitions.length = m.definitions.length ∧
    get_signal (register_signal m d now) d.id = some (initialSignal d now) ∧
    (initialSignal d now).value = d.fail_safe_value ∧
    (initialSignal d now).quality = SignalQuality.UNKNOWN ∧
    (register_signal m d now).update_count = m.update_count ∧
    (register_signal m d now).timeout_count = m.timeout_count := by
  refine ⟨?_, ?_, ?_, rfl, rfl, rfl, rfl⟩
  · simp [register_signal, dictInsert_of_find d.id d m.definitions hd]
  · simp [register_signal, dictInsert_of_find d.id d m.definitions hd]
  · simp [get_signal, register_signal, dictFind_dictInsert]

/-- Witness for `C9_reregister_amended`: re-registering `plc_heartbeat` on
the updated manager keeps the definitions but resets the observation. -/
theorem C9_reregister_amended_witness :
    (register_signal updatedOnceManager plc_heartbeat_def 200).definitions =
      updatedOnceManager.definitions ∧
    get_signal (register_signal updatedOnceManager plc_heartbeat_def 200)
      "plc_heartbeat" = some (initialSignal plc_heartbeat_def 200) := by
  have h := C9_reregister_amended updatedOnceManager plc_heartbeat_def 200
    (by decide)
  exact ⟨h.1, h.2.2.1⟩

/-- Any single `transition_to` call whose `force` flag is only raised for
targets `ESTOP` or `FALLBACK` preserves the history invariant. -/
theorem transition_to_history_invariant (m : SafetyStateMachine)
    (target : SafetyState) (trigger : String) (force : Bool) (now : Nat)
    (hforce : force = true →
      target = SafetyState.ESTOP ∨ target = SafetyState.FALLBACK)
    (hm : ∀ e ∈ m.history, legalHistoryEntry e) :
    ∀ e ∈ (transition_to m target trigger force now).2.history,
      legalHistoryEntry e := by
  intro e he
  by_cases h1 : m.current_state = target
  · rw [transition_to, if_pos h1] at he
    exact hm e he
  · by_cases h2 : ¬ force ∧ ¬ can_transition_to m target
    · rw [transition_to, if_neg h1, if_pos h2] at he
      exact hm e he
    · simp only [transition_to, if_neg h1, if_neg h2] at he
      have hmem : e ∈ m.history ++
          [{ from_state := m.current_state, to_state := target,
             trigger := trigger, forced := force }] := by
        split at he
        · exact List.mem_of_mem_drop he
        · exact he
      rcases List.mem_append.mp hmem with hold | hnew
      · exact hm e hold
      · rw [List.mem_singleton.mp hnew]
        cases force with
        | true => exact Or.inr ⟨rfl, hforce rfl⟩
        | false =>
          have hcan : can_transition_to m target = true := by
            by_contra hc
            exact h2 ⟨by simp, fun hcc => hc hcc⟩
          rw [can_transition_to, if_neg h1] at hcan
          exact Or.inl (of_decide_eq_true hcan)

/-- Every command of the state-machine API preserves the history
invariant: only `requestEstop` and `enterFallback` force, and they target
`ESTOP` and `FALLBACK` respectively. -/
theorem runCommand_history_invariant (m : SafetyStateMachine)
    (c : SMCommand) (now : Nat)
    (hm : ∀ e ∈ m.history, legalHistoryEntry e) :
    ∀ e ∈ (runCommand m c now).history, legalHistoryEntry e := by
  cases c <;>
    simp only [runCommand, request_estop, request_stop, request_slow,
      request_recovery, request_normal, enter_fallback] <;>
    first
      | exact transition_to_history_invariant _ _ _ _ _ (fun h => absurd h Bool.false_ne_true) hm
      | exact transition_to_history_invariant _ _ _ _ _ (fun _ => Or.inl rfl) hm
      | exact transition_to_history_invariant _ _ _ _ _ (fun _ => Or.inr rfl) hm

/-- The history invariant holds of every machine reached by a command
sequence from a machine whose history satisfies it. -/
theorem runCommands_history_invariant (cmds : List (SMCommand × Nat))
    (m : SafetyStateMachine)
    (hm : ∀ e ∈ m.history, legalHistoryEntry e) :
    ∀ e ∈ (runCommands m cmds).history, legalHistoryEntry e := by
  induction cmds generalizing m with
  | nil => exact hm
  | cons p rest ih =>
    obtain ⟨c, now⟩ := p
    exact ih _ (runCommand_history_invariant m c now hm)

/-- C3: along any sequence of `transition_to` and convenience-request calls
from a freshly initialised machine, every recorded transition is either in
`VALID_TRANSITIONS` of its source state or was issued forced with target
`ESTOP` (`request_estop`) or `FALLBACK` (`enter_fallback`). -/
theorem C3_history_legal (initial_state : SafetyState) (now0 : Nat)
    (cmds : List (SMCommand × Nat)) :
    ∀ e ∈ (runCommands (initMachine initial_state now0) cmds).history,
      e.to_state ∈ VALID_TRANSITIONS e.from_state ∨
        (e.forced = true ∧
          (e.to_state = SafetyState.ESTOP ∨ e.to_state = SafetyState.FALLBACK)) := by
  exact runCommands_history_invariant cmds (initMachine initial_state now0)
    (by intro e he; simp [initMachine] at he)

/-- Witness for `C3_history_legal`: after one `request_estop` from `INIT`
the single history entry is the forced `INIT → ESTOP` record, and it
satisfies the invariant. -/
theorem C3_history_legal_witness :
    ({ from_state := SafetyState.INIT, to_state := SafetyState.ESTOP,
       trigger := "e", forced := true } : StateTransition).to_state ∈
        VALID_TRANSITIONS SafetyState.INIT ∨
      (({ from_state := SafetyState.INIT, to_state := SafetyState.ESTOP,
          trigger := "e", forced := true } : StateTransition).forced = true ∧
        (({ from_state := SafetyState.INIT, to_state := SafetyState.ESTOP,
            trigger := "e", forced := true } : StateTransition).to_state =
            SafetyState.ESTOP ∨
         ({ from_state := SafetyState.INIT, to_state := SafetyState.ESTOP,
            trigger := "e", forced := true } : StateTransition).to_state =
            SafetyState.FALLBACK)) :=
  C3_history_legal SafetyState.INIT 0 [(SMCommand.requestEstop "e", 1)]
    { from_state := SafetyState.INIT, to_state := SafetyState.ESTOP,
      trigger := "e", forced := true }
    (by decide)

/-- Witness for `C4_noop_and_reject`: from `NORMAL`, requesting `NORMAL` is
an accepted no-op and requesting `RECOVERY` is rejected without change. -/
theorem C4_noop_and_reject_witness :
    transition_to (initMachine SafetyState.NORMAL 0) SafetyState.NORMAL "t" false 0 =
      (true, initMachine SafetyState.NORMAL 0) ∧
    transition_to (initMachine SafetyState.NORMAL 0) SafetyState.RECOVERY "t" false 0 =
      (false, initMachine SafetyState.NORMAL 0) :=
  ⟨(C4_noop_and_reject (initMachine SafetyState.NORMAL 0) SafetyState.NORMAL
      "t" false 0).1 rfl,
   (C4_noop_and_reject (initMachine SafetyState.NORMAL 0) SafetyState.RECOVERY
      "t" false 0).2 (by decide) (by decide)⟩

/-- Head of one stable insertion: the inserted element when its key is not
greater than the old head, otherwise the old head. -/
theorem stableInsert_head {α : Type} (le : α → α → Bool) (a : α) (l : List α) :
    (stableInsert le a l).head? =
      some (match l.head? with
            | none => a
            | some b => if le a b then a else b) := by
  cases l with
  | nil => rfl
  | cons b t =>
    by_cases h : le a b
    · simp [stableInsert, h]
    · simp [stableInsert, h]

/-- The head of a stable sort is the earliest minimal element. -/
theorem stableSort_head {α : Type} (le : α → α → Bool) (l : List α) :
    (stableSort le l).head? = firstMin le l := by
  induction l with
  | nil => rfl
  | cons a t ih =>
    show (stableInsert le a (stableSort le t)).head? = firstMin le (a :: t)
    rw [stableInsert_head, ih]
    cases h : firstMin le t <;> simp [firstMin, h]

/-- `firstMin` returns `none` exactly on the empty list. -/
theorem firstMin_eq_none {α : Type} (le : α → α → Bool) (l : List α) :
    firstMin le l = none ↔ l = [] := by
  cases l with
  | nil => simp [firstMin]
  | cons a t => cases h : firstMin le t <;> simp [firstMin, h]

/-- `firstMin` returns an element of the list. -/
theorem firstMin_mem {α : Type} (le : α → α → Bool) (l : List α) (w : α)
    (h : firstMin le l = some w) : w ∈ l := by
  induction l with
  | nil => simp [firstMin] at h
  | cons a t ih =>
    cases hb : firstMin le t with
    | none =>
      simp [firstMin, hb] at h
      subst h
      exact List.mem_cons_self a t
    | some b =>
      simp [firstMin, hb] at h
      by_cases hab : le a b
      · simp [hab] at h
        subst h
        exact List.mem_cons_self a t
      · simp [hab] at h
        subst h
        exact List.mem_cons_of_mem a (ih hb)

/-- The key comparison is reflexive. -/
theorem recKeyLE_refl (a : Recommendation) : recKeyLE a a = true := by
  simp [recKeyLE]

/-- The key comparison is total. -/
theorem recKeyLE_total (a b : Recommendation) :
    recKeyLE a b = true ∨ recKeyLE b a = true := by
  by_cases h1 : urgency_order a.urgency < urgency_order b.urgency
  · exact Or.inl (by simp [recKeyLE, h1])
  by_cases h2 : urgency_order b.urgency < urgency_order a.urgency
  · exact Or.inr (by simp [recKeyLE, h2])
  have he : urgency_order a.urgency = urgency_order b.urgency :=
    le_antisymm (not_lt.mp h2) (not_lt.mp h1)
  by_cases h3 : a.risk_score < b.risk_score
  · exact Or.inr (by simp [recKeyLE, he.symm, h3])
  by_cases h4 : b.risk_score < a.risk_score
  · exact Or.inl (by simp [recKeyLE, he, h4])
  have hs : a.risk_score = b.risk_score := le_antisymm (not_lt.mp h4) (not_lt.mp h3)
  by_cases h5 : a.received_at ≤ b.received_at
  · exact Or.inl (by simp [recKeyLE, he, hs, h5])
  · exact Or.inr (by simp [recKeyLE, he.symm, hs.symm, le_of_not_le h5])

/-- The key comparison is transitive. -/
theorem recKeyLE_trans (a b c : Recommendation)
    (h1 : recKeyLE a b = true) (h2 : recKeyLE b c = true) :
    recKeyLE a c = true := by
  simp only [recKeyLE, decide_eq_true_eq] at h1 h2 ⊢
  rcases h1 with h1 | ⟨h1e, h1r⟩
  · rcases h2 with h2 | ⟨h2e, h2r⟩
    · exact Or.inl (h1.trans h2)
    · exact Or.inl (by omega)
  · rcases h2 with h2 | ⟨h2e, h2r⟩
    · exact Or.inl (by omega)
    · refine Or.inr ⟨by omega, ?_⟩
      rcases h1r with h1r | ⟨h1s, h1t⟩
      · rcases h2r with h2r | ⟨h2s, h2t⟩
        · exact Or.inl (by linarith)
        · exact Or.inl (by linarith [h2s.symm.le])
      · rcases h2r with h2r | ⟨h2s, h2t⟩
        · exact Or.inl (by linarith [h1s.le])
        · exact Or.inr ⟨h1s.trans h2s, h1t.trans h2t⟩

/-- The first minimal element is `le`-below every element of the list. -/
theorem firstMin_le (l : List Recommendation) (w : Recommendation)
    (h : firstMin recKeyLE l = some w) :
    ∀ r ∈ l, recKeyLE w r = true := by
  induction l generalizing w with
  | nil => simp [firstMin] at h
  | cons a t ih =>
    intro r hr
    cases hb : firstMin recKeyLE t with
    | none =>
      have ht : t = [] := (firstMin_eq_none _ _).mp hb
      subst ht
      simp [firstMin] at h
      subst h
      simp at hr
      subst hr
      exact recKeyLE_refl _
    | some b =>
      simp [firstMin, hb] at h
      rcases List.mem_cons.mp hr with hr | hr
      · subst hr
        by_cases hab : recKeyLE r b
        · simp [hab] at h
          subst h
          exact recKeyLE_refl _
        · simp [hab] at h
          subst h
          rcases recKeyLE_total r b with htot | htot
          · exact absurd htot hab
          · exact htot
      · by_cases hab : recKeyLE a b
        · simp [hab] at h
          subst h
          exact recKeyLE_trans _ _ _ hab (ih b hb r hr)
        · simp [hab] at h
          subst h
          exact ih _ hb r hr

/-- Dropping elements that are strictly beaten by every kept element does
not change the first minimal element, as long as some element is kept. -/
theorem firstMin_filter (q : Recommendation → Bool) (l : List Recommendation)
    (hq : ∀ a b, q a = false → q b = true →
      recKeyLE b a = true ∧ recKeyLE a b = false)
    (hne : l.filter q ≠ []) :
    firstMin recKeyLE l = firstMin recKeyLE (l.filter q) := by
  induction l with
  | nil => simp at hne
  | cons a t ih =>
    by_cases hqa : q a = true
    · rw [List.filter_cons_of_pos hqa] at *
      by_cases hft : t.filter q = []
      · have hdropped : ∀ b ∈ t, q b = false := by
          intro b hb
          by_contra hqb
          have hmem : b ∈ t.filter q :=
            List.mem_filter.mpr ⟨hb, by simpa using hqb⟩
          rw [hft] at hmem
          simp at hmem
        rw [hft]
        cases hb : firstMin recKeyLE t with
        | none => simp [firstMin, hb]
        | some b =>
          have hbmem := firstMin_mem _ _ _ hb
          have hstrict := hq b a (hdropped b hbmem) hqa
          simp [firstMin, hb, hstrict.1]
      · have ih' := ih hft
        obtain ⟨c, hc⟩ : ∃ c, firstMin recKeyLE (t.filter q) = some c := by
          cases hc : firstMin recKeyLE (t.filter q) with
          | none => exact absurd ((firstMin_eq_none _ _).mp hc) hft
          | some c => exact ⟨c, rfl⟩
        have htc : firstMin recKeyLE t = some c := by rw [ih', hc]
        simp [firstMin, htc, hc]
    · have hqa' : q a = false := by simpa using hqa
      rw [List.filter_cons_of_neg (by simpa using hqa)] at *
      have ih' := ih hne
      obtain ⟨c, hc⟩ : ∃ c, firstMin recKeyLE (t.filter q) = some c := by
        cases hc : firstMin recKeyLE (t.filter q) with
        | none => exact absurd ((firstMin_eq_none _ _).mp hc) hne
        | some c => exact ⟨c, rfl⟩
      have hcq : q c = true := (List.mem_filter.mp (firstMin_mem _ _ _ hc)).2
      have hstrict := hq a c hqa' hcq
      have htc : firstMin recKeyLE t = some c := by rw [ih', hc]
      simp [firstMin, htc, hc, hstrict.1, hstrict.2]

/-- `pairLower` is irreflexive. -/
theorem pairLower_self (w : Recommendation) : pairLower w w = false := by
  simp [pairLower]

/-- An element whose (urgency, score) pair is strictly below `w`'s is
strictly after every element whose pair is not, in the full sort key. -/
theorem pairLower_strict (a b w : Recommendation)
    (ha : pairLower a w = true) (hb : pairLower b w = false) :
    recKeyLE b a = true ∧ recKeyLE a b = false := by
  simp only [pairLower, recKeyLE, decide_eq_true_eq,
    decide_eq_false_iff_not] at ha hb ⊢
  push_neg at hb
  obtain ⟨hb1, hb2⟩ := hb
  rcases ha with ha | ⟨hae, har⟩
  · constructor
    · exact Or.inl (by omega)
    · rintro (h' | ⟨h', -⟩) <;> omega
  · rcases lt_or_eq_of_le hb1 with hblt | hbeq
    · constructor
      · exact Or.inl (by omega)
      · rintro (h' | ⟨h', -⟩) <;> omega
    · have hbr := hb2 hbeq
      constructor
      · exact Or.inr ⟨by omega, Or.inl (by linarith)⟩
      · rintro (h' | ⟨h', hrr | ⟨hre, -⟩⟩)
        · omega
        · linarith
        · linarith

/-- C6: arbitration clears the pending list and selects an element of it
that is minimal for the Python sort key (maximal urgency, then higher risk
score, then earliest reception), and the selection is stable: any
rearrangement of the pending list that only moves elements whose
(urgency, risk_score) pair is strictly lower than the winner's — leaving the
relative order of the other elements unchanged — selects the same winner. -/
theorem C6_arbitration (pending : List Recommendation) (w : Recommendation)
    (hw : (arbitrate_recommendations pending).1 = some w) :
    (arbitrate_recommendations pending).2 = [] ∧
    w ∈ pending ∧
    (∀ r ∈ pending, recKeyLE w r = true) ∧
    (∀ pending2 : List Recommendation, List.Perm pending pending2 →
      pending.filter (fun r => ! pairLower r w) =
        pending2.filter (fun r => ! pairLower r w) →
      (arbitrate_recommendations pending2).1 = some w) := by
  have hfm : firstMin recKeyLE pending = some w := by
    rw [← stableSort_head]
    exact hw
  refine ⟨rfl, firstMin_mem _ _ _ hfm, firstMin_le _ _ hfm, ?_⟩
  intro pending2 hperm hfilter
  have hq : ∀ a b, (! pairLower a w) = false → (! pairLower b w) = true →
      recKeyLE b a = true ∧ recKeyLE a b = false := by
    intro a b ha hb
    exact pairLower_strict a b w (by simpa using ha) (by simpa using hb)
  have hne : pending.filter (fun r => ! pairLower r w) ≠ [] :=
    List.ne_nil_of_mem (List.mem_filter.mpr
      ⟨firstMin_mem _ _ _ hfm, by simp [pairLower_self]⟩)
  have h1 := firstMin_filter (fun r => ! pairLower r w) pending hq hne
  have hne2 : pending2.filter (fun r => ! pairLower r w) ≠ [] := by
    rw [← hfilter]
    exact hne
  have h2 := firstMin_filter (fun r => ! pairLower r w) pending2 hq hne2
  show (stableSort recKeyLE pending2).head? = some w
  rw [stableSort_head, h2, ← hfilter, ← h1, hfm]

/-- Witness for `C6_arbitration`: among an alert (urgency Normal, score 90,
first received), an E-STOP (Immediate, score 10, last received) and a slow
(High, score 55), the E-STOP wins, it is in the list, and it is key-below
every element. -/
theorem C6_arbitration_witness :
    recEstopImmediate ∈ [recAlertLow, recEstopImmediate, recSlowHigh] ∧
    (∀ r ∈ [recAlertLow, recEstopImmediate, recSlowHigh],
      recKeyLE recEstopImmediate r = true) := by
  have h := C6_arbitration [recAlertLow, recEstopImmediate, recSlowHigh]
    recEstopImmediate (by decide)
  exact ⟨h.2.1, h.2.2.1⟩
